import Mathlib

/-!
Shallow embedding of the HTTP-SWAGGER-APP repository (Go): the posts,
follows, feed, notifications, reactions and media handlers, translated
from the source files under `apis/`.  Go maps are modelled as association
lists with unique keys (`goGet`/`goPut`/`goDel` mirror map indexing,
assignment and `delete`), Go slices as `List`, Go slicing `a[lo:hi]` as
`goSlice` (returning `none` where Go would panic with a bounds error),
`strconv.Atoi` as `atoi?` (returning `none` where Go returns an error,
in which case the handlers' `v, _ := strconv.Atoi(s)` pattern yields 0).
JSON request bodies are passed to the handler models already decoded;
time values produced by `time.Parse`/`Unix` are modelled as integer Unix
seconds.
-/

/-- Go map read `m[k]`: `none` models `ok == false`. -/
def goGet {α β : Type} [DecidableEq α] : List (α × β) → α → Option β
  | [], _ => none
  | (k, v) :: rest, a => if k = a then some v else goGet rest a

/-- Go map write `m[k] = v`: replace the entry if the key is present,
otherwise add it. -/
def goPut {α β : Type} [DecidableEq α] : List (α × β) → α → β → List (α × β)
  | [], a, b => [(a, b)]
  | (k, v) :: rest, a, b => if k = a then (a, b) :: rest else (k, v) :: goPut rest a b

/-- Go `delete(m, k)`: drop the entry with the key (the first one; Go map
keys are unique, which the association lists preserve). -/
def goDel {α β : Type} [DecidableEq α] : List (α × β) → α → List (α × β)
  | [], _ => []
  | (k, v) :: rest, a => if k = a then rest else (k, v) :: goDel rest a

/-- Go slicing `l[lo:hi]`: the elements at indices `[lo, hi)`; `none`
models the runtime panic when `0 ≤ lo ≤ hi ≤ len(l)` fails. -/
def goSlice {α : Type} (l : List α) (lo hi : Int) : Option (List α) :=
  if 0 ≤ lo ∧ lo ≤ hi ∧ hi ≤ (l.length : Int) then
    some ((l.take hi.toNat).drop lo.toNat)
  else none

/-- Numeric value of a digit string. -/
def digitsToNat (l : List Char) : Nat :=
  l.foldl (fun acc c => acc * 10 + (c.toNat - Char.toNat '0')) 0

/-- `strconv.Atoi` / `strconv.ParseInt(s, 10, 64)` on the characters of the
input: an optional sign followed by at least one digit; `none` models a
returned error. -/
def atoiCore : List Char → Option Int
  | [] => none
  | '-' :: rest =>
    if rest ≠ [] ∧ rest.all Char.isDigit then some (-(digitsToNat rest : Int)) else none
  | '+' :: rest =>
    if rest ≠ [] ∧ rest.all Char.isDigit then some ((digitsToNat rest : Int)) else none
  | l => if l.all Char.isDigit then some ((digitsToNat l : Int)) else none

/-- `strconv.Atoi` over a string. -/
def atoi? (s : String) : Option Int := atoiCore s.data

/-- The handlers' `v, _ := strconv.Atoi(s)` pattern: the parsed value,
or Go's zero value 0 when parsing fails. -/
def atoiOr0 (s : String) : Int := (atoi? s).getD 0

/-- The `limit` parsing shared by `GetNotifications` and `GetNewsFeed`:
start from the default 10 and overwrite it only when `strconv.Atoi`
succeeds (an empty/absent parameter never parses). -/
def parseLimit (s : String) : Int :=
  match atoi? s with
  | some l => l
  | none => 10

/-! ## Posts (`apis/posts.go`, the stateful `PostsHandler` variant) -/

/-- The `Post` struct.  `MediaIDs []int` is `Option (List Int)` so that a
`nil` slice (JSON field absent) stays distinct from an empty one;
`IsDeleted` carries the JSON tag `"-"` and is never decoded from a body. -/
structure Post where
  postID : Int
  userID : Int
  content : String
  createdAt : String
  mediaIDs : Option (List Int)
  isDeleted : Bool
deriving DecidableEq, Repr

/-- `h.Posts map[int]Post`. -/
abbrev PostsMap : Type := List (Int × Post)

/-- The JSON body `CreatePost` decodes into its `req Post` variable: every
JSON-visible field of `Post`, plus a `deleted` field standing for any
attempt to set the deleted flag from the body. -/
structure PostBody where
  postID : Int
  userID : Int
  content : String
  createdAt : String
  mediaIDs : Option (List Int)
  deleted : Bool
deriving DecidableEq, Repr

/-- `json.NewDecoder(r.Body).Decode(&req)` for a `Post` target: all tagged
fields are filled from the body; `IsDeleted` (tag `"-"`) never is, so it
keeps its zero value `false`. -/
def decodePostBody (b : PostBody) : Post :=
  { postID := b.postID, userID := b.userID, content := b.content,
    createdAt := b.createdAt, mediaIDs := b.mediaIDs, isDeleted := false }

/-- Status outcomes of the mutating post handlers. -/
inductive PostMutResult
  | ok
  | badRequest
  | forbidden
  | notFound
deriving DecidableEq, Repr

/-- `GetPost`: look the id up; missing or soft-deleted yields the 404
branch (`none`). -/
def getPost (m : PostsMap) (postID : Int) : Option Post :=
  match goGet m postID with
  | none => none
  | some post => if post.isDeleted then none else some post

/-- `CreatePost`: reject an empty `Content`; otherwise store the decoded
body under `len(h.Posts) + 1` with `UserID` forced to 1 (the demo current
user) and `CreatedAt` forced to the current time. -/
def createPost (m : PostsMap) (b : PostBody) (now : String) : Option Int × PostsMap :=
  let req := decodePostBody b
  if req.content = "" then (none, m)
  else
    let newID : Int := (List.length m : Int) + 1
    let p : Post := { req with postID := newID, userID := 1, createdAt := now }
    (some newID, goPut m newID p)

/-- The field merge `UpdatePost` performs: `Content` only when the request
supplies a non-empty one, `MediaIDs` only when the request slice is not
`nil`. -/
def applyUpdate (post req : Post) : Post :=
  let p1 := if req.content ≠ "" then { post with content := req.content } else post
  match req.mediaIDs with
  | some ids => { p1 with mediaIDs := some ids }
  | none => p1

/-- `UpdatePost`: the combined guard `!exists || post.IsDeleted ||
post.UserID != 1` answers 403 (the request body is passed decoded, so the
separate 400 decode-error branch is outside the model). -/
def updatePost (m : PostsMap) (postID : Int) (req : Post) : PostMutResult × PostsMap :=
  match goGet m postID with
  | none => (.forbidden, m)
  | some post =>
    if post.isDeleted ∨ post.userID ≠ 1 then (.forbidden, m)
    else (.ok, goPut m postID (applyUpdate post req))

/-- `DeletePost`: same combined 403 guard, then set the soft-delete flag. -/
def deletePost (m : PostsMap) (postID : Int) : PostMutResult × PostsMap :=
  match goGet m postID with
  | none => (.forbidden, m)
  | some post =>
    if post.isDeleted ∨ post.userID ≠ 1 then (.forbidden, m)
    else (.ok, goPut m postID { post with isDeleted := true })

/-- The filtered collection `GetUserPosts` builds: the stored posts of
the user that are not soft-deleted, in store order (Go iterates the map
in unspecified order; the model fixes the association-list order). -/
def userPostsFiltered (m : PostsMap) (userID : Int) : List Post :=
  (m.map Prod.snd).filter (fun p => p.userID == userID && !p.isDeleted)

/-- Outcome of a paginated list handler: a page plus the unpaginated
total, a 404, or a slice-bounds panic. -/
inductive PageResult (α : Type)
  | ok (items : List α) (total : Nat)
  | notFound
  | outOfRange
deriving DecidableEq, Repr

/-- `GetUserPosts` after query parsing: 404 when the filtered collection
is empty, otherwise clamp `end` and `offset` to its length and slice. -/
def getUserPostsCore (m : PostsMap) (userID : Int) (offset limit : Int) : PageResult Post :=
  let userPosts := userPostsFiltered m userID
  if userPosts.length = 0 then .notFound
  else
    let n : Int := userPosts.length
    let end1 : Int := if offset + limit > n then n else offset + limit
    let off1 : Int := if offset > n then n else offset
    match goSlice userPosts off1 end1 with
    | some page => .ok page userPosts.length
    | none => .outOfRange

/-- `GetOwnPosts`: the same pagination for the fixed current user 1,
without the empty-collection 404. -/
def getOwnPostsCore (m : PostsMap) (offset limit : Int) : PageResult Post :=
  let userPosts := userPostsFiltered m 1
  let n : Int := userPosts.length
  let end1 : Int := if offset + limit > n then n else offset + limit
  let off1 : Int := if offset > n then n else offset
  match goSlice userPosts off1 end1 with
  | some page => .ok page userPosts.length
  | none => .outOfRange

/-- `GetUserPosts` including its tolerant query parsing
(`offset, _ := strconv.Atoi(...)`, `limit, _ := strconv.Atoi(...)`). -/
def getUserPosts (m : PostsMap) (userID : Int) (offsetStr limitStr : String) : PageResult Post :=
  getUserPostsCore m userID (atoiOr0 offsetStr) (atoiOr0 limitStr)

/-- The post ids on a returned page (empty for the 404 and panic
outcomes, which return no page). -/
def pagePostIDs : PageResult Post → List Int
  | .ok items _ => items.map Post.postID
  | .notFound => []
  | .outOfRange => []

/-! ## Notifications (`apis/notifications.go`, `NotificationHandler`) -/

/-- The `Notification` struct. -/
structure Notification where
  id : Int
  ntype : String
  sourceUserID : Int
  postID : Int
  read : Bool
  createdAt : String
deriving DecidableEq, Repr

/-- `GetNotifications` after query parsing: clamp only `end` to the total
(the source never clamps `offset`) and slice `h.notifications[offset:end]`. -/
def getNotificationsCore (ns : List Notification) (offset limit : Int) : PageResult Notification :=
  let total := ns.length
  let end1 : Int := if offset + limit > (total : Int) then (total : Int) else offset + limit
  match goSlice ns offset end1 with
  | some page => .ok page total
  | none => .outOfRange

/-- `GetNotifications` including its query parsing: `offset, _ :=
strconv.Atoi(...)` and the default-10 `limit`. -/
def getNotifications (ns : List Notification) (offsetStr limitStr : String) : PageResult Notification :=
  getNotificationsCore ns (atoiOr0 offsetStr) (parseLimit limitStr)

/-! ## News feed (`apis/feed.go`, `FeedsHandler`) -/

/-- The `FeedItem` struct, with `CreatedAt` modelled as integer Unix
seconds (the source round-trips it through `time.Parse`/`Unix`). -/
structure FeedItem where
  postID : Int
  userID : Int
  username : String
  avatar : String
  content : String
  mediaURLs : List String
  createdAt : Int
  likeCount : Int
  commentCount : Int
  isLiked : Bool
deriving DecidableEq, Repr

/-- The Unix value of Go's zero `time.Time` (year 1): the value
`beforeTime` keeps when the `before` parameter is present but does not
parse as an integer. -/
def goZeroTimeUnix : Int := -62135596800

/-- The collection loop of `GetNewsFeed`: append each item passing the
cursor test and stop as soon as the result holds `limit` items (the
length test runs after the append, so a non-positive `limit` still lets
one item through). -/
def feedLoop (p : FeedItem → Bool) (limit : Int) (acc : List FeedItem) :
    List FeedItem → List FeedItem
  | [] => acc
  | f :: rest =>
    if p f then
      let acc1 := acc ++ [f]
      if (acc1.length : Int) ≥ limit then acc1 else feedLoop p limit acc1 rest
    else feedLoop p limit acc rest

/-- `GetNewsFeed`: parse `limit` (default 10) and `before` (absent means
`time.Now()`, modelled by the `now` argument; unparsable means the zero
time), filter-and-truncate, then derive `next_cursor` from the last
returned item.  Returns the `feeds` list and the `next_cursor` string. -/
def getNewsFeed (feeds : List FeedItem) (beforeStr limitStr : String) (now : Int) :
    List FeedItem × String :=
  let limit := parseLimit limitStr
  let beforeTime : Int :=
    if beforeStr ≠ "" then
      match atoi? beforeStr with
      | some t => t
      | none => goZeroTimeUnix
    else now
  let result := feedLoop (fun f => decide (f.createdAt < beforeTime) || beforeStr == "") limit [] feeds
  let nextCursor :=
    match result.getLast? with
    | some last => toString last.createdAt
    | none => ""
  (result, nextCursor)

/-! ## Follows (`apis/follows.go`, `FollowsHandler`) -/

/-- The `Follow` struct. -/
structure Follow where
  userID : Int
  username : String
  avatar : String
deriving DecidableEq, Repr

/-- The two redundant edge maps `followers`/`following`
(`map[int][]Follow`). -/
structure FollowsState where
  followers : List (Int × List Follow)
  following : List (Int × List Follow)
deriving DecidableEq, Repr

/-- Go map read of a slice value: a missing key reads as the `nil`
slice, which ranges and appends like the empty list. -/
def followList (m : List (Int × List Follow)) (k : Int) : List Follow :=
  (goGet m k).getD []

/-- Status outcomes of `FollowUser`/`UnfollowUser`. -/
inductive FollowResult
  | created
  | badRequest
  | ok
  | forbidden
deriving DecidableEq, Repr

/-- `FollowUser`: 400 when the target already appears in the current
user's following list, otherwise append the edge to both maps. -/
def followUser (st : FollowsState) (targetID : Int) : FollowResult × FollowsState :=
  let currentID : Int := 1
  if (followList st.following currentID).any (fun u => u.userID == targetID) then
    (.badRequest, st)
  else
    let user : Follow := { userID := targetID, username := "user" ++ toString targetID, avatar := "" }
    let following1 :=
      goPut st.following currentID (followList st.following currentID ++ [user])
    let followers1 :=
      goPut st.followers targetID
        (followList st.followers targetID ++ [{ userID := currentID, username := "user1", avatar := "" }])
    (.created, { followers := followers1, following := following1 })

/-- The in-loop removal `append(list[:i], list[i+1:]...)`: drop the first
element with the given user id, keeping the order of the rest; the flag
reports whether one was found. -/
def removeFirstFollow : List Follow → Int → Bool × List Follow
  | [], _ => (false, [])
  | u :: rest, target =>
    if u.userID = target then (true, rest)
    else
      let r := removeFirstFollow rest target
      (r.1, u :: r.2)

/-- `UnfollowUser`: 403 when no edge to the target exists in the current
user's following list; otherwise remove it there and remove the current
user from the target's followers list (that second write only happens
when its loop finds a match). -/
def unfollowUser (st : FollowsState) (targetID : Int) : FollowResult × FollowsState :=
  let currentID : Int := 1
  let r1 := removeFirstFollow (followList st.following currentID) targetID
  if !r1.1 then (.forbidden, st)
  else
    let st1 : FollowsState := { st with following := goPut st.following currentID r1.2 }
    let r2 := removeFirstFollow (followList st1.followers targetID) currentID
    let st2 : FollowsState :=
      if r2.1 then { st1 with followers := goPut st1.followers targetID r2.2 } else st1
    (.ok, st2)

/-! ## Reactions (`apis/reactions.go`, `ReactionsHandler`) -/

/-- `reactions map[string]map[string]string`: post id → (user id →
reaction type). -/
abbrev ReactionsMap : Type := List (String × List (String × String))

/-- Status outcomes of `ReactToPost`. -/
inductive ReactResult
  | created
  | badRequest
deriving DecidableEq, Repr

/-- Status outcomes of `RemoveReaction`. -/
inductive RemoveReactionResult
  | ok
  | notFound
deriving DecidableEq, Repr

/-- `strings.TrimSpace`: strip leading and trailing whitespace. -/
def trimSpace (s : String) : String :=
  ⟨((s.data.dropWhile Char.isWhitespace).reverse.dropWhile Char.isWhitespace).reverse⟩

/-- `ReactToPost` with the fixed demo user `"user1"`: reject an
all-whitespace type, otherwise upsert the (post, user) entry (creating
the inner map when absent). -/
def reactToPost (m : ReactionsMap) (postID reactionType : String) : ReactResult × ReactionsMap :=
  if trimSpace reactionType = "" then (.badRequest, m)
  else
    let inner := (goGet m postID).getD []
    (.created, goPut m postID (goPut inner "user1" reactionType))

/-- `RemoveReaction` with the fixed demo user `"user1"`: 404 when the
post has no inner map or the user's entry reads as the zero value `""`,
otherwise delete the entry. -/
def removeReaction (m : ReactionsMap) (postID : String) : RemoveReactionResult × ReactionsMap :=
  match goGet m postID with
  | none => (.notFound, m)
  | some inner =>
    if (goGet inner "user1").getD "" = "" then (.notFound, m)
    else (.ok, goPut m postID (goDel inner "user1"))

/-! ## Media upload (`apis/media.go`, `MediaHandler`) -/

/-- The `Media` struct. -/
structure Media where
  id : Int
  mtype : String
  postID : Int
  url : String
deriving DecidableEq, Repr

/-- The handler state: the id sequence counter and the append-only list. -/
structure MediaState where
  nextID : Int
  medias : List Media
deriving DecidableEq, Repr

/-- The multipart form as `UploadMedia` reads it: whether
`ParseMultipartForm` succeeded, the `type` and `post_id` values, whether
the `file` part is present, and its base filename. -/
structure MediaForm where
  parseOk : Bool
  mediaType : String
  postIDStr : String
  hasFile : Bool
  filename : String
deriving DecidableEq, Repr

/-- Status outcomes of `UploadMedia`. -/
inductive MediaResult
  | created (mediaID : Int)
  | badRequest
  | notFound
  | internalError
deriving DecidableEq, Repr

/-- `UploadMedia`: form-parse error → 400; `type` outside
`{image, video}` → 400; `post_id` unparsable or non-positive → 404 (no
check that the post exists); missing file → 400; `os.Create` failure
(the `saveOk` argument) → 500; otherwise append a `Media` whose filename
is `fmt.Sprintf("%d_%s", h.nextID, base)` under `uploads/` and advance
the counter. -/
def uploadMedia (st : MediaState) (form : MediaForm) (saveOk : Bool) : MediaResult × MediaState :=
  if !form.parseOk then (.badRequest, st)
  else if form.mediaType ≠ "image" ∧ form.mediaType ≠ "video" then (.badRequest, st)
  else
    match atoi? form.postIDStr with
    | none => (.notFound, st)
    | some postID =>
      if postID ≤ 0 then (.notFound, st)
      else if !form.hasFile then (.badRequest, st)
      else if !saveOk then (.internalError, st)
      else
        let filename := toString st.nextID ++ "_" ++ form.filename
        let dstPath := "uploads/" ++ filename
        let media : Media := { id := st.nextID, mtype := form.mediaType, postID := postID, url := dstPath }
        (.created media.id, { nextID := st.nextID + 1, medias := st.medias ++ [media] })

/-! ## Association-list (Go map) lemmas -/

/-- The keys of a Go-map model. -/
def assocKeys {α β : Type} (m : List (α × β)) : List α := m.map Prod.fst

@[simp]
theorem assocKeys_nil {α β : Type} : assocKeys ([] : List (α × β)) = [] := rfl

@[simp]
theorem assocKeys_cons {α β : Type} (k : α) (v : β) (m : List (α × β)) :
    assocKeys ((k, v) :: m) = k :: assocKeys m := rfl

theorem length_assocKeys {α β : Type} (m : List (α × β)) :
    (assocKeys m).length = m.length := by
  simp [assocKeys]

theorem goGet_goPut_self {α β : Type} [DecidableEq α] (m : List (α × β)) (k : α) (v : β) :
    goGet (goPut m k v) k = some v := by
  induction m with
  | nil => simp [goGet, goPut]
  | cons kv rest ih =>
    obtain ⟨k1, v1⟩ := kv
    by_cases h : k1 = k <;> simp [goGet, goPut, h, ih]

theorem goGet_goPut_ne {α β : Type} [DecidableEq α] (m : List (α × β)) (k k' : α) (v : β)
    (h : k ≠ k') : goGet (goPut m k v) k' = goGet m k' := by
  induction m with
  | nil => simp [goGet, goPut, h]
  | cons kv rest ih =>
    obtain ⟨k1, v1⟩ := kv
    by_cases h1 : k1 = k
    · subst h1
      simp [goGet, goPut, h]
    · by_cases h2 : k1 = k'
      · subst h2
        simp [goGet, goPut, h1]
      · simp [goGet, goPut, h1, h2, ih]

theorem mem_keys_of_goGet {α β : Type} [DecidableEq α] {m : List (α × β)} {k : α} {v : β}
    (h : goGet m k = some v) : k ∈ assocKeys m := by
  induction m with
  | nil => simp [goGet] at h
  | cons kv rest ih =>
    obtain ⟨k1, v1⟩ := kv
    by_cases h1 : k1 = k
    · simp [h1]
    · simp only [goGet, if_neg h1] at h
      simp [ih h]

theorem goGet_mem {α β : Type} [DecidableEq α] {m : List (α × β)} {k : α} {v : β}
    (h : goGet m k = some v) : (k, v) ∈ m := by
  induction m with
  | nil => simp [goGet] at h
  | cons kv rest ih =>
    obtain ⟨k1, v1⟩ := kv
    by_cases h1 : k1 = k
    · subst h1
      simp [goGet] at h
      simp [h]
    · simp only [goGet, if_neg h1] at h
      exact List.mem_cons_of_mem _ (ih h)

theorem goGet_of_mem_nodup {α β : Type} [DecidableEq α] {m : List (α × β)} {k : α} {v : β}
    (hnd : (assocKeys m).Nodup) (h : (k, v) ∈ m) : goGet m k = some v := by
  induction m with
  | nil => simp at h
  | cons kv rest ih =>
    obtain ⟨k1, v1⟩ := kv
    simp only [assocKeys_cons, List.nodup_cons] at hnd
    rcases List.mem_cons.mp h with h0 | h0
    · injection h0 with hk hv
      subst hk
      subst hv
      simp [goGet]
    · have hk1 : k1 ≠ k := by
        intro he
        subst he
        exact hnd.1 (mem_keys_of_goGet (ih hnd.2 h0))
      simp only [goGet, if_neg hk1]
      exact ih hnd.2 h0

theorem assocKeys_goPut_mem {α β : Type} [DecidableEq α] {m : List (α × β)} {k : α} (v : β)
    (h : k ∈ assocKeys m) : assocKeys (goPut m k v) = assocKeys m := by
  induction m with
  | nil => simp at h
  | cons kv rest ih =>
    obtain ⟨k1, v1⟩ := kv
    by_cases h1 : k1 = k
    · simp [goPut, h1]
    · simp only [assocKeys_cons, List.mem_cons] at h
      rcases h with h | h
      · exact absurd h.symm h1
      · simp [goPut, h1, ih h]

theorem assocKeys_goPut_not_mem {α β : Type} [DecidableEq α] {m : List (α × β)} {k : α} (v : β)
    (h : k ∉ assocKeys m) : assocKeys (goPut m k v) = assocKeys m ++ [k] := by
  induction m with
  | nil => simp [goPut]
  | cons kv rest ih =>
    obtain ⟨k1, v1⟩ := kv
    simp only [assocKeys_cons, List.mem_cons] at h
    push_neg at h
    simp [goPut, Ne.symm h.1, ih h.2]

theorem length_goPut_mem {α β : Type} [DecidableEq α] {m : List (α × β)} {k : α} (v : β)
    (h : k ∈ assocKeys m) : (goPut m k v).length = m.length := by
  have h1 := congrArg List.length (assocKeys_goPut_mem (m := m) (k := k) v h)
  simpa [length_assocKeys] using h1

theorem length_goPut_not_mem {α β : Type} [DecidableEq α] {m : List (α × β)} {k : α} (v : β)
    (h : k ∉ assocKeys m) : (goPut m k v).length = m.length + 1 := by
  have h1 := congrArg List.length (assocKeys_goPut_not_mem (m := m) (k := k) v h)
  simpa [length_assocKeys] using h1

theorem nodup_assocKeys_goPut {α β : Type} [DecidableEq α] {m : List (α × β)} {k : α} (v : β)
    (h : (assocKeys m).Nodup) : (assocKeys (goPut m k v)).Nodup := by
  by_cases hk : k ∈ assocKeys m
  · rw [assocKeys_goPut_mem v hk]
    exact h
  · rw [assocKeys_goPut_not_mem v hk]
    simp [List.nodup_append, h, hk]

theorem mem_goPut_elim {α β : Type} [DecidableEq α] {m : List (α × β)} {k : α} {v : β}
    {x : α × β} (h : x ∈ goPut m k v) : x = (k, v) ∨ x ∈ m := by
  induction m with
  | nil => simpa [goPut] using h
  | cons kv rest ih =>
    obtain ⟨k1, v1⟩ := kv
    by_cases h1 : k1 = k
    · simp only [goPut, if_pos h1, List.mem_cons] at h
      rcases h with h | h
      · exact Or.inl h
      · exact Or.inr (List.mem_cons_of_mem _ h)
    · simp only [goPut, if_neg h1, List.mem_cons] at h
      rcases h with h | h
      · exact Or.inr (h ▸ List.mem_cons_self _ _)
      · rcases ih h with h' | h'
        · exact Or.inl h'
        · exact Or.inr (List.mem_cons_of_mem _ h')

/-! ## Slice and update lemmas -/

theorem goSlice_some {α : Type} (l : List α) (lo hi : Int)
    (h0 : 0 ≤ lo) (h1 : lo ≤ hi) (h2 : hi ≤ (l.length : Int)) :
    goSlice l lo hi = some ((l.drop lo.toNat).take (hi - lo).toNat) := by
  unfold goSlice
  rw [if_pos ⟨h0, h1, h2⟩]
  rw [List.drop_take]
  congr 2
  omega

theorem goSlice_none {α : Type} (l : List α) (lo hi : Int)
    (h : hi < lo) : goSlice l lo hi = none := by
  unfold goSlice
  rw [if_neg]
  intro hc
  omega

theorem applyUpdate_postID (post req : Post) : (applyUpdate post req).postID = post.postID := by
  cases hm : req.mediaIDs <;> by_cases h : req.content = "" <;> simp [applyUpdate, hm, h]

theorem applyUpdate_userID (post req : Post) : (applyUpdate post req).userID = post.userID := by
  cases hm : req.mediaIDs <;> by_cases h : req.content = "" <;> simp [applyUpdate, hm, h]

theorem applyUpdate_isDeleted (post req : Post) :
    (applyUpdate post req).isDeleted = post.isDeleted := by
  cases hm : req.mediaIDs <;> by_cases h : req.content = "" <;> simp [applyUpdate, hm, h]

/-! ## Demo records used by concrete instances -/

/-- A stored post owned by the fixed current user 1. -/
def demoPost : Post :=
  { postID := 1, userID := 1, content := "hello", createdAt := "t0",
    mediaIDs := none, isDeleted := false }

/-- A decoded `UpdatePost`/`DeletePost` request body. -/
def demoUpdateReq : Post :=
  { postID := 0, userID := 0, content := "edited", createdAt := "",
    mediaIDs := none, isDeleted := false }

/-- A decoded `CreatePost` body carrying spoofed id/author/time/deleted
fields. -/
def demoBody1 : PostBody :=
  { postID := 77, userID := 42, content := "hi", createdAt := "yesterday",
    mediaIDs := some [5], deleted := true }

/-- The same body with different spoofed fields. -/
def demoBody2 : PostBody :=
  { postID := 0, userID := 9, content := "hi", createdAt := "x",
    mediaIDs := some [5], deleted := false }

/-! ## C3: ownership checks on UpdatePost/DeletePost -/

/-- C3.  For an existing, non-deleted post: `UpdatePost` and `DeletePost`
fail with Forbidden (leaving the store unchanged) when the post's author
is not the resolved current user 1; when the author is user 1 they
succeed, a subsequent `GetPost` sees the merged content/media after an
update, and a subsequent `GetPost` reports the deletion (404) after a
delete. -/
theorem c3_ownership (m : PostsMap) (postID : Int) (p req : Post)
    (hg : goGet m postID = some p) (hnd : p.isDeleted = false) :
    (p.userID ≠ 1 →
      updatePost m postID req = (.forbidden, m) ∧
      deletePost m postID = (.forbidden, m)) ∧
    (p.userID = 1 →
      (updatePost m postID req).1 = .ok ∧
      getPost (updatePost m postID req).2 postID = some (applyUpdate p req) ∧
      (deletePost m postID).1 = .ok ∧
      getPost (deletePost m postID).2 postID = none) := by
  constructor
  · intro hne
    constructor
    · simp [updatePost, hg, hne]
    · simp [deletePost, hg, hne]
  · intro howner
    refine ⟨?_, ?_, ?_, ?_⟩
    · simp [updatePost, hg, hnd, howner]
    · simp [updatePost, hg, hnd, howner, getPost, goGet_goPut_self, applyUpdate_isDeleted]
    · simp [deletePost, hg, hnd, howner]
    · simp [deletePost, hg, hnd, howner, getPost, goGet_goPut_self]

/-- C3 witness: the theorem applied to a one-post store owned by user 1. -/
theorem c3_ownership_witness :
    goGet [((1 : Int), demoPost)] 1 = some demoPost ∧
    demoPost.isDeleted = false ∧
    ((demoPost.userID ≠ 1 →
      updatePost [((1 : Int), demoPost)] 1 demoUpdateReq = (.forbidden, [((1 : Int), demoPost)]) ∧
      deletePost [((1 : Int), demoPost)] 1 = (.forbidden, [((1 : Int), demoPost)])) ∧
    (demoPost.userID = 1 →
      (updatePost [((1 : Int), demoPost)] 1 demoUpdateReq).1 = .ok ∧
      getPost (updatePost [((1 : Int), demoPost)] 1 demoUpdateReq).2 1 =
        some (applyUpdate demoPost demoUpdateReq) ∧
      (deletePost [((1 : Int), demoPost)] 1).1 = .ok ∧
      getPost (deletePost [((1 : Int), demoPost)] 1).2 1 = none)) :=
  ⟨by decide, by decide, c3_ownership [((1 : Int), demoPost)] 1 demoPost demoUpdateReq (by decide) (by decide)⟩

/-! ## C4: missing record on UpdatePost/DeletePost -/

/-- C4 counterexample to the claim as stated: with an empty store (no
record for id 1) both mutating handlers answer Forbidden, not the
claimed NotFound. -/
theorem c4_missing_record_counterexample :
    (updatePost [] 1 demoUpdateReq).1 = PostMutResult.forbidden ∧
    (updatePost [] 1 demoUpdateReq).1 ≠ PostMutResult.notFound ∧
    (deletePost [] 1).1 = PostMutResult.forbidden ∧
    (deletePost [] 1).1 ≠ PostMutResult.notFound := by
  decide

/-- C4 as amended: `UpdatePost` and `DeletePost` fold the existence test
into the single guard `!exists || post.IsDeleted || post.UserID != 1`,
so a missing record fails with Forbidden (never NotFound), and the store
is left unchanged. -/
theorem c4_missing_record_amended (m : PostsMap) (postID : Int) (req : Post)
    (hg : goGet m postID = none) :
    updatePost m postID req = (.forbidden, m) ∧
    deletePost m postID = (.forbidden, m) := by
  simp [updatePost, deletePost, hg]

/-- C4 witness: the amended theorem applied to the empty store. -/
theorem c4_missing_record_amended_witness :
    goGet ([] : PostsMap) 1 = none ∧
    (updatePost [] 1 demoUpdateReq = (.forbidden, []) ∧
     deletePost [] 1 = (.forbidden, [])) :=
  ⟨by decide, c4_missing_record_amended [] 1 demoUpdateReq (by decide)⟩

/-! ## C10: CreatePost ignores spoofed identity fields -/

/-- C10.  A `CreatePost` whose decoded body has non-empty content stores
author id 1 and post id `len(store)+1` whatever `user_id`, `post_id`,
`createdAt` or deleted flag the body carries: two bodies agreeing on
content and media ids produce identical results. -/
theorem c10_create_post_fixed_author (m : PostsMap) (b1 b2 : PostBody) (now : String)
    (hc : b1.content = b2.content) (hm : b1.mediaIDs = b2.mediaIDs)
    (hne : b1.content ≠ "") :
    createPost m b1 now = createPost m b2 now ∧
    (createPost m b1 now).1 = some ((List.length m : Int) + 1) ∧
    goGet (createPost m b1 now).2 ((List.length m : Int) + 1) =
      some { postID := (List.length m : Int) + 1, userID := 1, content := b1.content,
             createdAt := now, mediaIDs := b1.mediaIDs, isDeleted := false } := by
  have hne2 : b2.content ≠ "" := hc ▸ hne
  refine ⟨?_, ?_, ?_⟩
  · simp [createPost, decodePostBody, hc, hm, hne, hne2]
  · simp [createPost, decodePostBody, hne]
  · simp [createPost, decodePostBody, hne, goGet_goPut_self]

/-- C10 witness: two bodies spoofing different ids/authors/times/deleted
flags, applied to the empty store. -/
theorem c10_create_post_fixed_author_witness :
    demoBody1.content = demoBody2.content ∧
    demoBody1.mediaIDs = demoBody2.mediaIDs ∧
    demoBody1.content ≠ "" ∧
    (createPost [] demoBody1 "t1" = createPost [] demoBody2 "t1" ∧
     (createPost [] demoBody1 "t1").1 = some ((List.length ([] : PostsMap) : Int) + 1) ∧
     goGet (createPost [] demoBody1 "t1").2 ((List.length ([] : PostsMap) : Int) + 1) =
       some { postID := (List.length ([] : PostsMap) : Int) + 1, userID := 1,
              content := demoBody1.content, createdAt := "t1",
              mediaIDs := demoBody1.mediaIDs, isDeleted := false }) :=
  ⟨by decide, by decide, by decide,
   c10_create_post_fixed_author [] demoBody1 demoBody2 "t1" (by decide) (by decide) (by decide)⟩

/-! ## C1: pagination -/

/-- The posts handlers' clamp-then-slice on a collection: clamping `end`
and `offset` to the length yields exactly the sub-sequence
`[offset, offset+limit)`, i.e. `drop offset` then `take limit`. -/
theorem clamped_slice {α : Type} (l : List α) (off lim : Int)
    (hoff : 0 ≤ off) (hlim : 0 ≤ lim) :
    goSlice l (if off > (l.length : Int) then (l.length : Int) else off)
      (if off + lim > (l.length : Int) then (l.length : Int) else off + lim)
      = some ((l.drop off.toNat).take lim.toNat) := by
  by_cases hc : off > (l.length : Int)
  · rw [if_pos hc, if_pos (by omega)]
    rw [goSlice_some _ _ _ (by omega) (by omega) (by omega)]
    have hd : l.drop off.toNat = [] := List.drop_eq_nil_of_le (by omega)
    have hd2 : l.drop ((l.length : Int)).toNat = [] := List.drop_eq_nil_of_le (by omega)
    simp [hd, hd2]
  · rw [if_neg hc]
    by_cases hc2 : off + lim > (l.length : Int)
    · rw [if_pos hc2]
      rw [goSlice_some _ _ _ hoff (by omega) (by omega)]
      congr 1
      refine List.take_eq_take.mpr ?_
      simp only [List.length_drop]
      omega
    · rw [if_neg hc2]
      rw [goSlice_some _ _ _ hoff (by omega) (by omega)]
      congr 2
      omega

theorem getOwnPostsCore_eq (m : PostsMap) (offset limit : Int)
    (hoff : 0 ≤ offset) (hlim : 0 ≤ limit) :
    getOwnPostsCore m offset limit =
      .ok (((userPostsFiltered m 1).drop offset.toNat).take limit.toNat)
        (userPostsFiltered m 1).length := by
  simp only [getOwnPostsCore]
  rw [clamped_slice _ _ _ hoff hlim]

theorem getUserPostsCore_eq (m : PostsMap) (userID offset limit : Int)
    (hne : userPostsFiltered m userID ≠ [])
    (hoff : 0 ≤ offset) (hlim : 0 ≤ limit) :
    getUserPostsCore m userID offset limit =
      .ok (((userPostsFiltered m userID).drop offset.toNat).take limit.toNat)
        (userPostsFiltered m userID).length := by
  simp only [getUserPostsCore]
  rw [if_neg (by simp [List.length_eq_zero, hne])]
  rw [clamped_slice _ _ _ hoff hlim]

theorem getUserPostsCore_empty (m : PostsMap) (userID offset limit : Int)
    (he : userPostsFiltered m userID = []) :
    getUserPostsCore m userID offset limit = .notFound := by
  simp only [getUserPostsCore]
  rw [if_pos (by simp [he])]

theorem getNotificationsCore_in_range (ns : List Notification) (offset limit : Int)
    (hoff : 0 ≤ offset) (hlim : 0 ≤ limit) (hle : offset ≤ (ns.length : Int)) :
    getNotificationsCore ns offset limit =
      .ok ((ns.drop offset.toNat).take limit.toNat) ns.length := by
  simp only [getNotificationsCore]
  by_cases hc : offset + limit > (ns.length : Int)
  · rw [if_pos hc]
    rw [goSlice_some _ _ _ hoff (by omega) (by omega)]
    have : ((ns.length : Int) - offset).toNat = min limit.toNat (ns.length - offset.toNat) := by
      omega
    rw [this]
    have h2 : (ns.drop offset.toNat).take (min limit.toNat (ns.length - offset.toNat)) =
        (ns.drop offset.toNat).take limit.toNat := by
      refine List.take_eq_take.mpr ?_
      simp only [List.length_drop]
      omega
    rw [h2]
  · rw [if_neg hc]
    rw [goSlice_some _ _ _ hoff (by omega) (by omega)]
    have h3 : offset + limit - offset = limit := by omega
    rw [h3]

theorem getNotificationsCore_out_of_range (ns : List Notification) (offset limit : Int)
    (hlim : 0 ≤ limit) (hgt : (ns.length : Int) < offset) :
    getNotificationsCore ns offset limit = .outOfRange := by
  simp only [getNotificationsCore]
  rw [if_pos (by omega)]
  rw [goSlice_none _ _ _ (by omega)]

/-- C1 counterexample to the claim as stated: with zero notifications and
`offset = 1 > N = 0`, `GetNotifications` hits the unclamped slice
`h.notifications[1:0]` and panics instead of returning the claimed empty
page with total 0; and `GetUserPosts` over an empty filtered collection
answers 404 instead of a page. -/
theorem c1_pagination_counterexample :
    getNotificationsCore [] 1 10 = PageResult.outOfRange ∧
    getNotificationsCore [] 1 10 ≠ PageResult.ok [] 0 ∧
    getUserPostsCore [] 7 1 10 = PageResult.notFound ∧
    getUserPostsCore [] 7 1 10 ≠ PageResult.ok [] 0 := by
  decide

/-- C1 as amended.  For `offset, limit ≥ 0`: `GetOwnPosts` returns
exactly the clamped sub-sequence `[offset, offset+limit)` of the
filtered collection with total its full length (empty page when `offset`
exceeds it); `GetUserPosts` does the same when the filtered collection
is non-empty and answers 404 when it is empty; `GetNotifications` does
the same only while `offset ≤ N` — for `offset > N` its unclamped slice
panics instead of returning an empty page. -/
theorem c1_pagination_amended (m : PostsMap) (ns : List Notification)
    (userID offset limit : Int) (hoff : 0 ≤ offset) (hlim : 0 ≤ limit) :
    (getOwnPostsCore m offset limit =
      .ok (((userPostsFiltered m 1).drop offset.toNat).take limit.toNat)
        (userPostsFiltered m 1).length) ∧
    ((((userPostsFiltered m 1).drop offset.toNat).take limit.toNat).length
      = min limit.toNat ((userPostsFiltered m 1).length - offset.toNat)) ∧
    (userPostsFiltered m userID ≠ [] →
      getUserPostsCore m userID offset limit =
        .ok (((userPostsFiltered m userID).drop offset.toNat).take limit.toNat)
          (userPostsFiltered m userID).length) ∧
    (userPostsFiltered m userID = [] →
      getUserPostsCore m userID offset limit = .notFound) ∧
    (offset ≤ (ns.length : Int) →
      getNotificationsCore ns offset limit =
        .ok ((ns.drop offset.toNat).take limit.toNat) ns.length) ∧
    ((ns.length : Int) < offset →
      getNotificationsCore ns offset limit = .outOfRange) := by
  refine ⟨getOwnPostsCore_eq m offset limit hoff hlim, ?_, ?_, ?_, ?_, ?_⟩
  · simp [List.length_take, List.length_drop]
  · intro hne
    exact getUserPostsCore_eq m userID offset limit hne hoff hlim
  · intro he
    exact getUserPostsCore_empty m userID offset limit he
  · intro hle
    exact getNotificationsCore_in_range ns offset limit hoff hlim hle
  · intro hgt
    exact getNotificationsCore_out_of_range ns offset limit hlim hgt

/-- A notification record for concrete instances. -/
def demoNotification : Notification :=
  { id := 1, ntype := "like", sourceUserID := 1, postID := 1, read := false,
    createdAt := "t0" }

/-- C1 witness: the amended theorem applied to a one-post store and a
one-notification list at `offset = 0`, `limit = 10`. -/
theorem c1_pagination_amended_witness :
    (0 : Int) ≤ 0 ∧ (0 : Int) ≤ 10 ∧
    getOwnPostsCore [((1 : Int), demoPost)] 0 10 =
      .ok (((userPostsFiltered [((1 : Int), demoPost)] 1).drop (Int.toNat 0)).take (Int.toNat 10))
        (userPostsFiltered [((1 : Int), demoPost)] 1).length :=
  ⟨by decide, by decide,
   (c1_pagination_amended [((1 : Int), demoPost)] [demoNotification] 1 0 10
     (by decide) (by decide)).1⟩

/-! ## C8: tolerant query parsing -/

/-- Feed items for concrete instances. -/
def demoFeedItemA : FeedItem :=
  { postID := 1, userID := 2, username := "u2", avatar := "", content := "a",
    mediaURLs := [], createdAt := 100, likeCount := 0, commentCount := 0, isLiked := false }

/-- A second, older feed item. -/
def demoFeedItemB : FeedItem :=
  { postID := 2, userID := 3, username := "u3", avatar := "", content := "b",
    mediaURLs := [], createdAt := 90, likeCount := 0, commentCount := 0, isLiked := false }

/-- C8 counterexample to the claim as stated: a negative numeric `limit`
(-1) is NOT treated as absent by `GetNewsFeed` — it parses successfully,
is kept, and truncates the feed to a single item, while an absent limit
returns both items under the default 10. -/
theorem c8_tolerant_parsing_counterexample :
    (getNewsFeed [demoFeedItemA, demoFeedItemB] "" "-1" 0).1 = [demoFeedItemA] ∧
    (getNewsFeed [demoFeedItemA, demoFeedItemB] "" "" 0).1 = [demoFeedItemA, demoFeedItemB] ∧
    ([demoFeedItemA] : List FeedItem) ≠ [demoFeedItemA, demoFeedItemB] := by
  decide

/-- C8 as amended.  A non-numeric `offset`/`limit` is treated exactly as
absent: the whole handler result is unchanged when the parameter is
replaced by the empty string (offset falling back to 0, and limit to the
default 10 where one exists).  But a negative numeric value parses
successfully and is used as-is, and `GetUserPosts` has no default-10
limit at all (both its parameters fall back to 0). -/
theorem c8_tolerant_parsing_amended (offsetStr limitStr : String)
    (hoff : atoi? offsetStr = none) (hlim : atoi? limitStr = none) :
    (∀ ns, getNotifications ns offsetStr limitStr = getNotifications ns "" "") ∧
    (∀ feeds beforeStr now,
      getNewsFeed feeds beforeStr limitStr now = getNewsFeed feeds beforeStr "" now) ∧
    (∀ m userID, getUserPosts m userID offsetStr limitStr = getUserPosts m userID "" "") ∧
    (∀ s v, atoi? s = some v → parseLimit s = v ∧ atoiOr0 s = v) := by
  have he : atoi? "" = none := rfl
  refine ⟨?_, ?_, ?_, ?_⟩
  · intro ns
    simp [getNotifications, atoiOr0, parseLimit, hoff, hlim, he]
  · intro feeds beforeStr now
    simp only [getNewsFeed, parseLimit, hlim, he]
  · intro m userID
    simp [getUserPosts, atoiOr0, hoff, hlim, he]
  · intro s v h
    constructor
    · simp [parseLimit, h]
    · simp [atoiOr0, h]

/-- C8 witness: the amended theorem applied to the non-numeric
parameters "abc" and "zz". -/
theorem c8_tolerant_parsing_amended_witness :
    atoi? "abc" = none ∧ atoi? "zz" = none ∧
    (∀ ns, getNotifications ns "abc" "zz" = getNotifications ns "" "") :=
  ⟨by decide, by decide, (c8_tolerant_parsing_amended "abc" "zz" (by decide) (by decide)).1⟩

/-! ## C6: feed cursor -/

/-- The collection loop of `GetNewsFeed` is filter-then-truncate while the
accumulator is still below the limit. -/
theorem feedLoop_eq (p : FeedItem → Bool) (limit : Int) (fs : List FeedItem) :
    ∀ acc : List FeedItem, (acc.length : Int) < limit →
      feedLoop p limit acc fs = acc ++ (fs.filter p).take (limit - acc.length).toNat := by
  induction fs with
  | nil =>
    intro acc hacc
    simp [feedLoop]
  | cons f rest ih =>
    intro acc hacc
    cases hp : p f with
    | false =>
      simp only [feedLoop, hp, Bool.false_eq_true, if_false]
      rw [ih acc hacc]
      simp [List.filter_cons, hp]
    | true =>
      by_cases hstop : ((acc ++ [f]).length : Int) ≥ limit
      · have hl : (limit - (acc.length : Int)).toNat = 1 := by
          simp only [List.length_append, List.length_singleton] at hstop
          omega
        simp only [feedLoop, hp, if_true, hstop]
        simp [List.filter_cons, hp, hl]
      · have h2 : (((acc ++ [f]).length : Int)) < limit := by omega
        have hth : (limit - (acc.length : Int)).toNat =
            (limit - ((acc.length : Int) + 1)).toNat + 1 := by
          omega
        simp only [feedLoop, hp, if_true, hstop, if_false]
        rw [ih _ h2]
        simp [List.filter_cons, hp, hth, List.length_append]

/-- C6.  With a present numeric `before` cursor and a positive `limit`,
`GetNewsFeed` returns exactly the feed items whose creation time is
strictly before the cursor, in collection order, truncated to `limit`,
and `next_cursor` is the creation time of the last returned item (empty
string when no item is returned). -/
theorem c6_feed_cursor (feeds : List FeedItem) (beforeStr limitStr : String)
    (beforeT limit now : Int)
    (hb : atoi? beforeStr = some beforeT) (hl : atoi? limitStr = some limit)
    (hpos : 0 < limit) :
    (getNewsFeed feeds beforeStr limitStr now).1 =
      (feeds.filter (fun f => decide (f.createdAt < beforeT))).take limit.toNat ∧
    (getNewsFeed feeds beforeStr limitStr now).2 =
      (match ((feeds.filter (fun f => decide (f.createdAt < beforeT))).take limit.toNat).getLast? with
       | some last => toString last.createdAt
       | none => "") := by
  have hne : beforeStr ≠ "" := by
    intro h
    rw [h] at hb
    exact Option.noConfusion hb
  have hbeq : (beforeStr == "") = false := by
    simp [hne]
  have hloop := feedLoop_eq (fun f => decide (f.createdAt < beforeT)) limit feeds []
    (by simpa using hpos)
  simp only [List.length_nil, Int.ofNat_zero, Nat.cast_zero, Int.sub_zero, List.nil_append] at hloop
  simp only [getNewsFeed, parseLimit, hl, if_pos hne, hb, hbeq, Bool.or_false]
  rw [hloop]
  exact ⟨rfl, rfl⟩

/-- The feed item at Unix time 100. -/
def feed100 : FeedItem :=
  { postID := 1, userID := 2, username := "u2", avatar := "", content := "p100",
    mediaURLs := [], createdAt := 100, likeCount := 0, commentCount := 0, isLiked := false }

/-- The feed item at Unix time 90. -/
def feed90 : FeedItem :=
  { postID := 2, userID := 2, username := "u2", avatar := "", content := "p90",
    mediaURLs := [], createdAt := 90, likeCount := 0, commentCount := 0, isLiked := false }

/-- The feed item at Unix time 80. -/
def feed80 : FeedItem :=
  { postID := 3, userID := 2, username := "u2", avatar := "", content := "p80",
    mediaURLs := [], createdAt := 80, likeCount := 0, commentCount := 0, isLiked := false }

/-- C6 witness: the theorem applied to the spec's instance — timestamps
[100, 90, 80], `before = 95`, `limit = 10` — which returns the items at
90 and 80 in that order with `next_cursor = "80"`. -/
theorem c6_feed_cursor_witness :
    atoi? "95" = some 95 ∧ atoi? "10" = some 10 ∧ (0 : Int) < 10 ∧
    (getNewsFeed [feed100, feed90, feed80] "95" "10" 0).1 =
      ([feed100, feed90, feed80].filter (fun f => decide (f.createdAt < 95))).take (Int.toNat 10) ∧
    (getNewsFeed [feed100, feed90, feed80] "95" "10" 0).1 = [feed90, feed80] ∧
    (getNewsFeed [feed100, feed90, feed80] "95" "10" 0).2 = "80" :=
  ⟨by decide, by decide, by decide,
   (c6_feed_cursor [feed100, feed90, feed80] "95" "10" 95 10 0
     (by decide) (by decide) (by decide)).1,
   by decide, by decide⟩

/-! ## C5: follow symmetry -/

/-- The user ids appearing in a follow list. -/
def followUserIDs (l : List Follow) : List Int := l.map Follow.userID

@[simp]
theorem followUserIDs_nil : followUserIDs [] = [] := rfl

@[simp]
theorem followUserIDs_cons (u : Follow) (l : List Follow) :
    followUserIDs (u :: l) = u.userID :: followUserIDs l := rfl

@[simp]
theorem followUserIDs_append (l1 l2 : List Follow) :
    followUserIDs (l1 ++ l2) = followUserIDs l1 ++ followUserIDs l2 := by
  simp [followUserIDs]

theorem any_userID_eq (l : List Follow) (target : Int) :
    (l.any (fun u => u.userID == target)) = true ↔ target ∈ followUserIDs l := by
  simp [List.any_eq_true, followUserIDs, List.mem_map]

theorem removeFirstFollow_fst (l : List Follow) (target : Int) :
    (removeFirstFollow l target).1 = true ↔ target ∈ followUserIDs l := by
  induction l with
  | nil => simp [removeFirstFollow]
  | cons u rest ih =>
    by_cases h : u.userID = target
    · simp [removeFirstFollow, h]
    · simp only [removeFirstFollow, if_neg h, followUserIDs_cons, List.mem_cons]
      rw [ih]
      constructor
      · exact fun hm => Or.inr hm
      · rintro (he | hm)
        · exact absurd he.symm h
        · exact hm

theorem removeFirstFollow_not_mem (l : List Follow) (target : Int)
    (hnd : (followUserIDs l).Nodup) :
    target ∉ followUserIDs (removeFirstFollow l target).2 := by
  induction l with
  | nil => simp [removeFirstFollow]
  | cons u rest ih =>
    simp only [followUserIDs_cons, List.nodup_cons] at hnd
    by_cases h : u.userID = target
    · simp only [removeFirstFollow, if_pos h]
      exact h ▸ hnd.1
    · simp only [removeFirstFollow, if_neg h, followUserIDs_cons, List.mem_cons]
      push_neg
      exact ⟨fun he => h he.symm, ih hnd.2⟩

theorem followList_goPut_self (m : List (Int × List Follow)) (k : Int) (v : List Follow) :
    followList (goPut m k v) k = v := by
  simp [followList, goGet_goPut_self]

/-- C5.  With the current user fixed to 1: a successful `follow(1, B)`
puts B in user 1's following list and 1 in B's followers list; following
an already-followed user fails with BadRequest leaving the state
unchanged; a successful `unfollow(1, B)` removes both directions (the
no-duplicate hypotheses hold in every state these handlers produce,
since an edge is only appended when absent); unfollowing a non-followed
user fails with Forbidden leaving the state unchanged. -/
theorem c5_follow_symmetry (st : FollowsState) (targetID : Int)
    (hnd1 : (followUserIDs (followList st.following 1)).Nodup)
    (hnd2 : (followUserIDs (followList st.followers targetID)).Nodup) :
    (targetID ∉ followUserIDs (followList st.following 1) →
      (followUser st targetID).1 = .created ∧
      targetID ∈ followUserIDs (followList (followUser st targetID).2.following 1) ∧
      1 ∈ followUserIDs (followList (followUser st targetID).2.followers targetID)) ∧
    (targetID ∈ followUserIDs (followList st.following 1) →
      followUser st targetID = (.badRequest, st)) ∧
    (targetID ∈ followUserIDs (followList st.following 1) →
      (unfollowUser st targetID).1 = .ok ∧
      targetID ∉ followUserIDs (followList (unfollowUser st targetID).2.following 1) ∧
      1 ∉ followUserIDs (followList (unfollowUser st targetID).2.followers targetID)) ∧
    (targetID ∉ followUserIDs (followList st.following 1) →
      unfollowUser st targetID = (.forbidden, st)) := by
  refine ⟨?_, ?_, ?_, ?_⟩
  · intro hnm
    have hany : ¬((followList st.following 1).any (fun u => u.userID == targetID) = true) :=
      fun h => hnm ((any_userID_eq _ _).mp h)
    simp only [followUser, if_neg hany]
    refine ⟨trivial, ?_, ?_⟩
    · simp [followList_goPut_self]
    · simp [followList_goPut_self]
  · intro hm
    have hany : (followList st.following 1).any (fun u => u.userID == targetID) = true :=
      (any_userID_eq _ _).mpr hm
    simp only [followUser, if_pos hany]
  · intro hm
    have hr1 : (removeFirstFollow (followList st.following 1) targetID).1 = true :=
      (removeFirstFollow_fst _ _).mpr hm
    simp only [unfollowUser, hr1, Bool.not_true, Bool.false_eq_true, if_false]
    refine ⟨trivial, ?_, ?_⟩
    · by_cases hr2 : (removeFirstFollow (followList st.followers targetID) 1).1 = true
      · simp only [hr2, if_pos]
        simp [followList_goPut_self, removeFirstFollow_not_mem _ _ hnd1]
      · simp only [hr2, if_neg, if_false]
        simp [followList_goPut_self, removeFirstFollow_not_mem _ _ hnd1]
    · by_cases hr2 : (removeFirstFollow (followList st.followers targetID) 1).1 = true
      · simp only [hr2, if_pos]
        simp [followList_goPut_self]
        exact removeFirstFollow_not_mem _ _ hnd2
      · have h1nm : 1 ∉ followUserIDs (followList st.followers targetID) :=
          fun h => hr2 ((removeFirstFollow_fst _ _).mpr h)
        simp only [hr2, if_neg, if_false]
        simpa using h1nm
  · intro hnm
    have hr1 : ¬((removeFirstFollow (followList st.following 1) targetID).1 = true) :=
      fun h => hnm ((removeFirstFollow_fst _ _).mp h)
    have hr1' : (removeFirstFollow (followList st.following 1) targetID).1 = false :=
      Bool.not_eq_true _ ▸ hr1
    simp only [unfollowUser, hr1', Bool.not_false, if_true]

/-- A follows state where user 1 already follows user 2 (both directions
recorded). -/
def demoFollows : FollowsState :=
  { followers := [((2 : Int), [{ userID := 1, username := "user1", avatar := "" }])],
    following := [((1 : Int), [{ userID := 2, username := "user2", avatar := "" }])] }

/-- C5 witness: the theorem applied to `demoFollows` and target user 2;
its unfollow branch fires, removing the edge from both maps. -/
theorem c5_follow_symmetry_witness :
    (followUserIDs (followList demoFollows.following 1)).Nodup ∧
    (followUserIDs (followList demoFollows.followers 2)).Nodup ∧
    (2 ∈ followUserIDs (followList demoFollows.following 1) →
      (unfollowUser demoFollows 2).1 = .ok ∧
      2 ∉ followUserIDs (followList (unfollowUser demoFollows 2).2.following 1) ∧
      1 ∉ followUserIDs (followList (unfollowUser demoFollows 2).2.followers 2)) :=
  ⟨by decide, by decide, (c5_follow_symmetry demoFollows 2 (by decide) (by decide)).2.2.1⟩

/-! ## C7: reaction last-write-wins -/

theorem mem_assocKeys_goPut_self {α β : Type} [DecidableEq α] (m : List (α × β)) (k : α) (v : β) :
    k ∈ assocKeys (goPut m k v) := by
  by_cases hk : k ∈ assocKeys m
  · rw [assocKeys_goPut_mem v hk]
    exact hk
  · rw [assocKeys_goPut_not_mem v hk]
    simp

theorem count_assocKeys_goPut_nodup {α β : Type} [DecidableEq α] (m : List (α × β)) (k : α)
    (v : β) (hnd : (assocKeys m).Nodup) : (assocKeys (goPut m k v)).count k = 1 := by
  by_cases hk : k ∈ assocKeys m
  · rw [assocKeys_goPut_mem v hk]
    exact List.count_eq_one_of_mem hnd hk
  · rw [assocKeys_goPut_not_mem v hk, List.count_append]
    simp [List.count_eq_zero_of_not_mem hk]

/-- C7.  Reacting twice to the same post (with the handler's fixed user
`"user1"`) with two valid reaction types leaves exactly one stored entry
for that (post, user) key, carrying the second type; and
`RemoveReaction` on a (post, user) key with no stored reaction answers
NotFound and leaves the map unchanged. -/
theorem c7_reaction_last_write_wins (m : ReactionsMap) (postID t1 t2 : String)
    (h1 : trimSpace t1 ≠ "") (h2 : trimSpace t2 ≠ "")
    (hnd : (assocKeys ((goGet m postID).getD ([] : List (String × String)))).Nodup) :
    goGet ((goGet (reactToPost (reactToPost m postID t1).2 postID t2).2 postID).getD []) "user1"
      = some t2 ∧
    (assocKeys
      ((goGet (reactToPost (reactToPost m postID t1).2 postID t2).2 postID).getD [])).count "user1"
      = 1 ∧
    (∀ m' pid, (goGet m' pid).bind (fun inner => goGet inner "user1") = none →
      removeReaction m' pid = (.notFound, m')) := by
  have e1 : (reactToPost m postID t1).2 =
      goPut m postID (goPut ((goGet m postID).getD []) "user1" t1) := by
    simp [reactToPost, h1]
  have e2 : (reactToPost (reactToPost m postID t1).2 postID t2).2 =
      goPut (reactToPost m postID t1).2 postID
        (goPut (goPut ((goGet m postID).getD []) "user1" t1) "user1" t2) := by
    rw [e1]
    simp [reactToPost, h2, goGet_goPut_self]
  have hinner2 : (goGet (reactToPost (reactToPost m postID t1).2 postID t2).2 postID).getD
      ([] : List (String × String)) =
      goPut (goPut ((goGet m postID).getD []) "user1" t1) "user1" t2 := by
    rw [e2, goGet_goPut_self, Option.getD_some]
  refine ⟨?_, ?_, ?_⟩
  · rw [hinner2, goGet_goPut_self]
  · rw [hinner2]
    exact count_assocKeys_goPut_nodup _ _ _ (nodup_assocKeys_goPut _ hnd)
  · intro m' pid hnone
    cases hget : goGet m' pid with
    | none => simp [removeReaction, hget]
    | some inner =>
      rw [hget] at hnone
      simp at hnone
      simp [removeReaction, hget, hnone]

/-- C7 witness: reacting twice on post "5" from the empty reactions map. -/
theorem c7_reaction_last_write_wins_witness :
    trimSpace "like" ≠ "" ∧ trimSpace "love" ≠ "" ∧
    (assocKeys ((goGet ([] : ReactionsMap) "5").getD ([] : List (String × String)))).Nodup ∧
    goGet ((goGet (reactToPost (reactToPost ([] : ReactionsMap) "5" "like").2 "5" "love").2 "5").getD [])
        "user1" = some "love" :=
  ⟨by decide, by decide, by decide,
   (c7_reaction_last_write_wins [] "5" "like" "love" (by decide) (by decide) (by decide)).1⟩

/-! ## C9: media upload validation -/

/-- A parsed multipart form with a valid type, a negative post id and a
missing file part. -/
def demoMediaForm : MediaForm :=
  { parseOk := true, mediaType := "image", postIDStr := "-1", hasFile := false,
    filename := "a.png" }

/-- A parsed multipart form for a successful upload. -/
def demoMediaForm2 : MediaForm :=
  { parseOk := true, mediaType := "video", postIDStr := "3", hasFile := true,
    filename := "b.mp4" }

/-- The fresh media handler state. -/
def demoMediaState : MediaState := { nextID := 1, medias := [] }

/-- C9 counterexample to the claim as stated: with a valid type, a
negative post id and a missing file part, the handler answers NotFound
(the post-id check runs before the file check), not the BadRequest the
claim's "file part is missing" clause demands. -/
theorem c9_upload_media_counterexample :
    (uploadMedia demoMediaState demoMediaForm true).1 = MediaResult.notFound ∧
    (uploadMedia demoMediaState demoMediaForm true).1 ≠ MediaResult.badRequest := by
  decide

/-- C9 as amended: the checks run in source order — type, then post id,
then file.  An invalid type fails BadRequest; otherwise a non-numeric or
non-positive post id fails NotFound (no existence check); otherwise a
missing file fails BadRequest; otherwise a failed save fails
InternalError; otherwise a `Media` whose filename is derived from the
sequence number is appended and the counter advances.  Every failure
leaves the state unchanged. -/
theorem c9_upload_media_amended (st : MediaState) (form : MediaForm) (saveOk : Bool)
    (hp : form.parseOk = true) :
    (¬(form.mediaType = "image" ∨ form.mediaType = "video") →
      uploadMedia st form saveOk = (.badRequest, st)) ∧
    ((form.mediaType = "image" ∨ form.mediaType = "video") → atoi? form.postIDStr = none →
      uploadMedia st form saveOk = (.notFound, st)) ∧
    (∀ pid : Int, (form.mediaType = "image" ∨ form.mediaType = "video") →
      atoi? form.postIDStr = some pid → pid ≤ 0 →
      uploadMedia st form saveOk = (.notFound, st)) ∧
    (∀ pid : Int, (form.mediaType = "image" ∨ form.mediaType = "video") →
      atoi? form.postIDStr = some pid → 0 < pid → form.hasFile = false →
      uploadMedia st form saveOk = (.badRequest, st)) ∧
    (∀ pid : Int, (form.mediaType = "image" ∨ form.mediaType = "video") →
      atoi? form.postIDStr = some pid → 0 < pid → form.hasFile = true → saveOk = false →
      uploadMedia st form saveOk = (.internalError, st)) ∧
    (∀ pid : Int, (form.mediaType = "image" ∨ form.mediaType = "video") →
      atoi? form.postIDStr = some pid → 0 < pid → form.hasFile = true → saveOk = true →
      uploadMedia st form saveOk =
        (.created st.nextID,
         { nextID := st.nextID + 1,
           medias := st.medias ++
             [{ id := st.nextID, mtype := form.mediaType, postID := pid,
                url := "uploads/" ++ (toString st.nextID ++ "_" ++ form.filename) }] })) := by
  refine ⟨?_, ?_, ?_, ?_, ?_, ?_⟩
  · intro hbad
    simp [uploadMedia, hp, not_or.mp hbad]
  · intro htype hnum
    rcases htype with ht | ht <;> simp [uploadMedia, hp, ht, hnum]
  · intro pid htype hnum hle
    rcases htype with ht | ht <;> simp [uploadMedia, hp, ht, hnum, hle]
  · intro pid htype hnum hpos hfile
    rcases htype with ht | ht <;>
      simp [uploadMedia, hp, ht, hnum, hfile, not_le.mpr hpos]
  · intro pid htype hnum hpos hfile hsave
    rcases htype with ht | ht <;>
      simp [uploadMedia, hp, ht, hnum, hfile, hsave, not_le.mpr hpos]
  · intro pid htype hnum hpos hfile hsave
    rcases htype with ht | ht <;>
      simp [uploadMedia, hp, ht, hnum, hfile, hsave, not_le.mpr hpos]

/-- C9 witness: the amended theorem's success branch applied to a fresh
state and a valid video upload for post 3. -/
theorem c9_upload_media_amended_witness :
    demoMediaForm2.parseOk = true ∧
    (demoMediaForm2.mediaType = "image" ∨ demoMediaForm2.mediaType = "video") ∧
    atoi? demoMediaForm2.postIDStr = some 3 ∧ (0 : Int) < 3 ∧
    demoMediaForm2.hasFile = true ∧
    uploadMedia demoMediaState demoMediaForm2 true =
      (.created demoMediaState.nextID,
       { nextID := demoMediaState.nextID + 1,
         medias := demoMediaState.medias ++
           [{ id := demoMediaState.nextID, mtype := demoMediaForm2.mediaType, postID := 3,
              url := "uploads/" ++ (toString demoMediaState.nextID ++ "_" ++ demoMediaForm2.filename) }] }) :=
  ⟨by decide, by decide, by decide, by decide, by decide,
   (c9_upload_media_amended demoMediaState demoMediaForm2 true (by decide)).2.2.2.2.2 3
     (by decide) (by decide) (by decide) (by decide) (by decide)⟩

/-! ## C2: soft delete persists across every later state -/

/-- The mutating operations of `PostsHandler` (the read-only handlers do
not change the store). -/
inductive PostOp
  | create (b : PostBody) (now : String)
  | update (postID : Int) (req : Post)
  | delete (postID : Int)

/-- One mutating request against the store. -/
def stepPost (m : PostsMap) : PostOp → PostsMap
  | .create b now => (createPost m b now).2
  | .update postID req => (updatePost m postID req).2
  | .delete postID => (deletePost m postID).2

/-- A sequence of mutating requests. -/
def execPosts (m : PostsMap) (ops : List PostOp) : PostsMap := ops.foldl stepPost m

/-- The store shape every reachable state has: keys are distinct, lie in
`1..len` (so `len(h.Posts)+1` is always fresh), and each stored post's
`PostID` equals its key. -/
structure PostsWF (m : PostsMap) : Prop where
  nodup : (assocKeys m).Nodup
  bounded : ∀ k ∈ assocKeys m, 1 ≤ k ∧ k ≤ (List.length m : Int)
  coherent : ∀ kv ∈ m, (Prod.snd kv).postID = Prod.fst kv

theorem postsWF_nil : PostsWF [] := ⟨List.nodup_nil, by simp, by simp⟩

theorem postsWF_put_fresh (m : PostsMap) (h : PostsWF m) (p : Post)
    (hpid : p.postID = (List.length m : Int) + 1) :
    PostsWF (goPut m ((List.length m : Int) + 1) p) := by
  have hfresh : ((List.length m : Int) + 1) ∉ assocKeys m := by
    intro hk
    have := h.bounded _ hk
    omega
  refine ⟨?_, ?_, ?_⟩
  · rw [assocKeys_goPut_not_mem _ hfresh]
    simp [List.nodup_append, h.nodup, hfresh]
  · rw [assocKeys_goPut_not_mem _ hfresh, length_goPut_not_mem _ hfresh]
    intro k hk
    rcases List.mem_append.mp hk with hk | hk
    · have := h.bounded _ hk
      refine ⟨by omega, ?_⟩
      push_cast
      omega
    · simp at hk
      subst hk
      refine ⟨by omega, ?_⟩
      push_cast
      omega
  · intro kv hkv
    rcases mem_goPut_elim hkv with he | hm
    · subst he
      exact hpid
    · exact h.coherent _ hm

theorem postsWF_put_existing (m : PostsMap) (h : PostsWF m) (k : Int) (post p' : Post)
    (hget : goGet m k = some post) (hpid : p'.postID = post.postID) :
    PostsWF (goPut m k p') := by
  have hk : k ∈ assocKeys m := mem_keys_of_goGet hget
  refine ⟨?_, ?_, ?_⟩
  · rw [assocKeys_goPut_mem _ hk]
    exact h.nodup
  · rw [assocKeys_goPut_mem _ hk, length_goPut_mem _ hk]
    exact h.bounded
  · intro kv hkv
    rcases mem_goPut_elim hkv with he | hm
    · subst he
      rw [hpid]
      exact h.coherent _ (goGet_mem hget)
    · exact h.coherent _ hm

theorem postsWF_step (m : PostsMap) (h : PostsWF m) (op : PostOp) :
    PostsWF (stepPost m op) := by
  cases op with
  | create b now =>
    by_cases hc : (decodePostBody b).content = ""
    · simp only [stepPost, createPost, hc, if_pos]
      exact h
    · simp only [stepPost, createPost, hc, if_neg, if_false]
      exact postsWF_put_fresh m h _ rfl
  | update postID req =>
    cases hget : goGet m postID with
    | none => simpa only [stepPost, updatePost, hget] using h
    | some post =>
      by_cases hcond : (post.isDeleted = true ∨ post.userID ≠ 1)
      · simpa only [stepPost, updatePost, hget, if_pos hcond] using h
      · simp only [stepPost, updatePost, hget, if_neg hcond]
        exact postsWF_put_existing m h postID post _ hget (applyUpdate_postID post req)
  | delete postID =>
    cases hget : goGet m postID with
    | none => simpa only [stepPost, deletePost, hget] using h
    | some post =>
      by_cases hcond : (post.isDeleted = true ∨ post.userID ≠ 1)
      · simpa only [stepPost, deletePost, hget, if_pos hcond] using h
      · simp only [stepPost, deletePost, hget, if_neg hcond]
        exact postsWF_put_existing m h postID post _ hget rfl

theorem postsWF_exec (ops : List PostOp) :
    ∀ m : PostsMap, PostsWF m → PostsWF (execPosts m ops) := by
  induction ops with
  | nil =>
    intro m h
    exact h
  | cons op rest ih =>
    intro m h
    exact ih _ (postsWF_step m h op)

theorem deleted_stable_step (m : PostsMap) (h : PostsWF m) (id : Int) (p : Post)
    (hg : goGet m id = some p) (hd : p.isDeleted = true) (op : PostOp) :
    ∃ q, goGet (stepPost m op) id = some q ∧ q.isDeleted = true := by
  cases op with
  | create b now =>
    by_cases hc : (decodePostBody b).content = ""
    · simp only [stepPost, createPost, hc, if_pos]
      exact ⟨p, hg, hd⟩
    · simp only [stepPost, createPost, hc, if_neg, if_false]
      have hne : ((List.length m : Int) + 1) ≠ id := by
        have := h.bounded _ (mem_keys_of_goGet hg)
        omega
      rw [goGet_goPut_ne _ _ _ _ hne]
      exact ⟨p, hg, hd⟩
  | update postID req =>
    by_cases hpe : postID = id
    · subst hpe
      simp only [stepPost, updatePost, hg, if_pos (Or.inl hd)]
      exact ⟨p, rfl, hd⟩
    · cases hget : goGet m postID with
      | none =>
        simp only [stepPost, updatePost, hget]
        exact ⟨p, hg, hd⟩
      | some post =>
        by_cases hcond : (post.isDeleted = true ∨ post.userID ≠ 1)
        · simp only [stepPost, updatePost, hget, if_pos hcond]
          exact ⟨p, hg, hd⟩
        · simp only [stepPost, updatePost, hget, if_neg hcond]
          rw [goGet_goPut_ne _ _ _ _ hpe]
          exact ⟨p, hg, hd⟩
  | delete postID =>
    by_cases hpe : postID = id
    · subst hpe
      simp only [stepPost, deletePost, hg, if_pos (Or.inl hd)]
      exact ⟨p, rfl, hd⟩
    · cases hget : goGet m postID with
      | none =>
        simp only [stepPost, deletePost, hget]
        exact ⟨p, hg, hd⟩
      | some post =>
        by_cases hcond : (post.isDeleted = true ∨ post.userID ≠ 1)
        · simp only [stepPost, deletePost, hget, if_pos hcond]
          exact ⟨p, hg, hd⟩
        · simp only [stepPost, deletePost, hget, if_neg hcond]
          rw [goGet_goPut_ne _ _ _ _ hpe]
          exact ⟨p, hg, hd⟩

theorem deleted_stable_exec (id : Int) (ops : List PostOp) :
    ∀ m : PostsMap, PostsWF m →
      (∃ p, goGet m id = some p ∧ p.isDeleted = true) →
      ∃ q, goGet (execPosts m ops) id = some q ∧ q.isDeleted = true := by
  induction ops with
  | nil =>
    intro m _ hp
    exact hp
  | cons op rest ih =>
    intro m h hp
    obtain ⟨p, hg, hd⟩ := hp
    exact ih _ (postsWF_step m h op) (deleted_stable_step m h id p hg hd op)

theorem goSlice_subset {α : Type} {l page : List α} {lo hi : Int}
    (h : goSlice l lo hi = some page) : ∀ x ∈ page, x ∈ l := by
  unfold goSlice at h
  split at h
  · injection h with h
    subst h
    intro x hx
    exact List.mem_of_mem_take (List.mem_of_mem_drop hx)
  · exact Option.noConfusion h

theorem getUserPostsCore_ok_subset (m : PostsMap) (userID offset limit : Int)
    (page : List Post) (total : Nat)
    (h : getUserPostsCore m userID offset limit = .ok page total) :
    ∀ q ∈ page, q ∈ userPostsFiltered m userID := by
  simp only [getUserPostsCore] at h
  split at h
  · exact PageResult.noConfusion h
  · split at h
    · injection h with h1 h2
      subst h1
      next heq => exact goSlice_subset heq
    · exact PageResult.noConfusion h

theorem deleted_absent_filtered (m : PostsMap) (h : PostsWF m) (id : Int) (p : Post)
    (hg : goGet m id = some p) (hd : p.isDeleted = true) (userID : Int) :
    ∀ q ∈ userPostsFiltered m userID, q.postID ≠ id := by
  intro q hq he
  unfold userPostsFiltered at hq
  rw [List.mem_filter] at hq
  obtain ⟨hqm, hpred⟩ := hq
  obtain ⟨kv, hkv, hsnd⟩ := List.mem_map.mp hqm
  have hcoh := h.coherent kv hkv
  have hk : kv.1 = id := by
    rw [← hcoh, hsnd, he]
  have hgq : goGet m id = some q := by
    rw [← hk, ← hsnd]
    exact goGet_of_mem_nodup h.nodup (by simpa using hkv)
  rw [hg] at hgq
  injection hgq with hpq
  subst hpq
  simp [hd] at hpred

theorem deleted_absent_pages (m : PostsMap) (h : PostsWF m) (id : Int) (p : Post)
    (hg : goGet m id = some p) (hd : p.isDeleted = true) :
    ∀ userID offset limit : Int,
      id ∉ pagePostIDs (getUserPostsCore m userID offset limit) := by
  intro userID offset limit
  cases hres : getUserPostsCore m userID offset limit with
  | ok page total =>
    simp only [pagePostIDs]
    intro hmem
    obtain ⟨q, hq, he⟩ := List.mem_map.mp hmem
    exact deleted_absent_filtered m h id p hg hd userID q
      (getUserPostsCore_ok_subset m userID offset limit page total hres q hq) he
  | notFound => simp [pagePostIDs]
  | outOfRange => simp [pagePostIDs]

/-- C2.  Starting from the empty store, once a `DeletePost(id)` request
succeeds, every later state reachable by any sequence of further
create/update/delete requests still has the post soft-deleted: `GetPost(id)`
answers 404 and `id` never appears on any page any `GetUserPosts` call
returns. -/
theorem c2_soft_delete_persists (ops1 ops2 : List PostOp) (postID : Int)
    (hdel : (deletePost (execPosts [] ops1) postID).1 = PostMutResult.ok) :
    getPost (execPosts (deletePost (execPosts [] ops1) postID).2 ops2) postID = none ∧
    ∀ userID offset limit : Int,
      postID ∉ pagePostIDs
        (getUserPostsCore (execPosts (deletePost (execPosts [] ops1) postID).2 ops2)
          userID offset limit) := by
  have hwf1 : PostsWF (execPosts [] ops1) := postsWF_exec ops1 [] postsWF_nil
  cases hget : goGet (execPosts [] ops1) postID with
  | none =>
    simp [deletePost, hget] at hdel
  | some post =>
    by_cases hcond : (post.isDeleted = true ∨ post.userID ≠ 1)
    · simp [deletePost, hget, hcond] at hdel
    · have hstate : (deletePost (execPosts [] ops1) postID).2 =
          goPut (execPosts [] ops1) postID { post with isDeleted := true } := by
        simp only [deletePost, hget, if_neg hcond]
      have hwfs1 : PostsWF (deletePost (execPosts [] ops1) postID).2 := by
        rw [hstate]
        exact postsWF_put_existing _ hwf1 postID post _ hget rfl
      have hgd : goGet (deletePost (execPosts [] ops1) postID).2 postID =
          some { post with isDeleted := true } := by
        rw [hstate]
        exact goGet_goPut_self ..
      obtain ⟨q, hq, hqd⟩ :=
        deleted_stable_exec postID ops2 _ hwfs1 ⟨_, hgd, rfl⟩
      have hwf2 : PostsWF (execPosts (deletePost (execPosts [] ops1) postID).2 ops2) :=
        postsWF_exec ops2 _ hwfs1
      constructor
      · simp [getPost, hq, hqd]
      · exact deleted_absent_pages _ hwf2 postID q hq hqd

/-- C2 witness: create post 1 as user 1, delete it, then create another
post; the deleted id 1 stays invisible. -/
theorem c2_soft_delete_persists_witness :
    (deletePost (execPosts [] [PostOp.create demoBody1 "t0"]) 1).1 = PostMutResult.ok ∧
    getPost (execPosts (deletePost (execPosts [] [PostOp.create demoBody1 "t0"]) 1).2
      [PostOp.create demoBody1 "t1"]) 1 = none :=
  ⟨by decide,
   (c2_soft_delete_persists [PostOp.create demoBody1 "t0"] [PostOp.create demoBody1 "t1"] 1
     (by decide)).1⟩
